import Mathlib

/-!
Shallow embedding of the trip/stop progression state machine and its
dual-sink publisher from the route-master driver app.

Sources embedded here:
- `src/types/driver.ts`: the `Stop`, `RouteInfo`, `DriverInfo`, `StopStatus`,
  `RouteState` types.
- `src/pages/MainRoutePage.tsx` (the version with the mount-time restore and
  background-location prompt): `handleStartRoute`, `handleMarkReached`, the
  post-completion auto-reset effect and `restoreTripState`.
- `src/services/firebaseService.ts`: `markStopReachedInRTDB` and the
  `currentStop` computation of `saveStopsProgressToFirebase`.
- `src/services/tripService.ts`: the shapes of the Firestore trip writes
  (`startTrip`, `updateTripRouteState`, `markStopReached`, `finishTrip`) are
  mirrored as abstract write events.

JavaScript arrays become `List`, `Array.prototype.map` with an index becomes
`mapWithIndex`, `Array.prototype.findIndex` becomes `findIndex` (returning
`Option Nat` instead of `-1`), and the asynchronous fire-and-forget store
writes become an emitted trace of `WriteEvent`s together with an `outcomes`
oracle giving each issued write's success or failure.
-/

namespace RouteMaster

/-- `StopStatus` from `src/types/driver.ts`:
`'reached' | 'current' | 'pending'`. -/
inductive StopStatus where
  | pending
  | current
  | reached
deriving DecidableEq, Repr

/-- `Stop` from `src/types/driver.ts`. `order` is modelled as `Nat`. -/
structure Stop where
  id : String
  name : String
  status : StopStatus
  order : Nat
deriving DecidableEq, Repr

/-- `RouteInfo` from `src/types/driver.ts`. -/
structure RouteInfo where
  id : String
  name : String
  busNumber : String
  stops : List Stop
deriving DecidableEq, Repr

/-- `DriverInfo` from `src/types/driver.ts`. -/
structure DriverInfo where
  id : String
  name : String
  route : RouteInfo
deriving DecidableEq, Repr

/-- `RouteState` from `src/types/driver.ts`:
`'not_started' | 'in_progress' | 'completed'`. -/
inductive RouteState where
  | not_started
  | in_progress
  | completed
deriving DecidableEq, Repr

/-- The component state of `MainRoutePage`: the `stops`, `routeState` and
`activeTripId` `useState` cells (the transient `message` text is omitted). -/
structure AppState where
  stops : List Stop
  routeState : RouteState
  activeTripId : Option String
deriving DecidableEq, Repr

/-- `Array.prototype.map` with the element index, starting from `i`. -/
def mapWithIndexFrom {α : Type} (f : Nat → α → α) : Nat → List α → List α
  | _, [] => []
  | i, a :: rest => f i a :: mapWithIndexFrom f (i + 1) rest

/-- `Array.prototype.map((x, index) => ...)`. -/
def mapWithIndex {α : Type} (f : Nat → α → α) (l : List α) : List α :=
  mapWithIndexFrom f 0 l

@[simp]
theorem length_mapWithIndexFrom {α : Type} (f : Nat → α → α) (i : Nat) (l : List α) :
    (mapWithIndexFrom f i l).length = l.length := by
  induction l generalizing i with
  | nil => rfl
  | cons a rest ih => simp [mapWithIndexFrom, ih]

@[simp]
theorem length_mapWithIndex {α : Type} (f : Nat → α → α) (l : List α) :
    (mapWithIndex f l).length = l.length :=
  length_mapWithIndexFrom f 0 l

theorem getElem_mapWithIndexFrom {α : Type} (f : Nat → α → α) (i : Nat) (l : List α)
    (j : Nat) (hj : j < l.length) (hj2 : j < (mapWithIndexFrom f i l).length) :
    (mapWithIndexFrom f i l)[j] = f (i + j) (l[j]) := by
  induction l generalizing i j with
  | nil => simp at hj
  | cons a rest ih =>
    cases j with
    | zero => simp [mapWithIndexFrom]
    | succ k =>
      have hk : k < rest.length := by simpa using Nat.lt_of_succ_lt_succ hj
      simp only [mapWithIndexFrom, List.getElem_cons_succ]
      rw [ih (i + 1) k hk (by simpa using hk)]
      congr 1
      omega

theorem getElem_mapWithIndex {α : Type} (f : Nat → α → α) (l : List α)
    (j : Nat) (hj : j < l.length) (hj2 : j < (mapWithIndex f l).length) :
    (mapWithIndex f l)[j] = f j (l[j]) := by
  simpa [mapWithIndex] using getElem_mapWithIndexFrom f 0 l j hj (by simpa using hj)

/-- The JavaScript `findIndex` over the stop list used by the handlers:
`stops.findIndex((stop) => stop.status === 'current')`. -/
def currentIdx (stops : List Stop) : Option Nat :=
  stops.findIdx? (fun st => st.status == StopStatus.current)

/-- An abstract record of one asynchronous store write issued by the page.
Each constructor names the service function the page calls and carries the
arguments that function writes. -/
inductive WriteEvent where
  | busLocationMeta (busNumber routeId routeName driverName : String) (rs : RouteState)
  | routeStateWrite (driverId busNumber : String) (rs : RouteState)
  | stopsProgress (busNumber : String) (stops : List Stop)
  | createTripDoc (busNumber routeId routeName driverId driverName : String) (stops : List Stop)
  | tripRouteState (busNumber tripId : String) (rs : RouteState) (currentStop : Option Stop)
  | tripStopReached (busNumber tripId stopId : String)
  | rtdbMarkReached (busNumber reachedStopId : String) (reachedAt : Nat) (next : Option Stop)
  | finishTripDoc (busNumber tripId : String)
deriving DecidableEq, Repr

/-- The stop-list update performed by `handleStartRoute`:
`stops.map((stop, index) => index === 0 ? {...stop, status: 'current'} : {...stop, status: 'pending'})`. -/
def startStops (stops : List Stop) : List Stop :=
  mapWithIndex (fun index stop =>
    if index = 0 then { stop with status := StopStatus.current }
    else { stop with status := StopStatus.pending }) stops

/-- The stop-list update performed by `handleMarkReached` once the current
index `i` is known; `isLast` is `currentIndex === stops.length - 1`. -/
def markStops (stops : List Stop) (i : Nat) (isLast : Bool) : List Stop :=
  mapWithIndex (fun index stop =>
    if index = i then { stop with status := StopStatus.reached }
    else if index = i + 1 ∧ isLast = false then { stop with status := StopStatus.current }
    else stop) stops

/-- The stop-list reset performed by the post-completion auto-reset effect:
`driver.route.stops.map((stop) => ({...stop, status: 'pending'}))`. -/
def resetStops (routeStops : List Stop) : List Stop :=
  routeStops.map (fun stop => { stop with status := StopStatus.pending })

/-- The delay, in milliseconds, of the `setTimeout` in the auto-reset effect
of `MainRoutePage` (`}, 8000);`). -/
def resetDelayMs : Nat := 8000

/-- The initial component state of `MainRoutePage`:
`useState(driver.route.stops)`, `useState('not_started')`, `useState(null)`. -/
def initState (driver : DriverInfo) : AppState :=
  { stops := driver.route.stops
    routeState := RouteState.not_started
    activeTripId := none }

/-- `handleStartRoute` from `MainRoutePage.tsx`. `outcomes n` tells whether
the `n`-th issued write succeeds; the only write whose outcome the handler
observes is `startTrip` (write number 3), whose `.then` stores the new trip
id and issues the follow-up `updateTripRouteState`; every other write carries
only a `.catch(console.error)`. -/
def runStartRoute (driver : DriverInfo) (s : AppState) (newTripId : String)
    (outcomes : Nat → Bool) : AppState × List WriteEvent :=
  if s.routeState = RouteState.in_progress then (s, [])
  else
    let nextStops := startStops s.stops
    let current := nextStops.find? (fun st => st.status == StopStatus.current)
    let baseWrites : List WriteEvent :=
      [ WriteEvent.busLocationMeta driver.route.busNumber driver.route.id
          driver.route.name driver.name RouteState.in_progress,
        WriteEvent.routeStateWrite driver.id driver.route.busNumber RouteState.in_progress,
        WriteEvent.stopsProgress driver.route.busNumber nextStops,
        WriteEvent.createTripDoc driver.route.busNumber driver.route.id
          driver.route.name driver.id driver.name nextStops ]
    if outcomes 3 then
      ({ stops := nextStops, routeState := RouteState.in_progress,
         activeTripId := some newTripId },
       baseWrites ++
         [WriteEvent.tripRouteState driver.route.busNumber newTripId
            RouteState.in_progress current])
    else
      ({ stops := nextStops, routeState := RouteState.in_progress,
         activeTripId := s.activeTripId },
       baseWrites)

/-- A fallback stop value; never visible, because `handleMarkReached` only
indexes `stops[currentIndex]` after `findIndex` returned `currentIndex`. -/
def dummyStop : Stop :=
  { id := "", name := "", status := StopStatus.pending, order := 0 }

/-- `handleMarkReached` from `MainRoutePage.tsx`. `now` is `Date.now()` at
the tap. All writes are fire-and-forget (`.catch(console.error)` only), so
`outcomes` is never consulted. -/
def runMarkReached (driver : DriverInfo) (s : AppState) (now : Nat)
    (_outcomes : Nat → Bool) : AppState × List WriteEvent :=
  match currentIdx s.stops with
  | none => (s, [])
  | some currentIndex =>
    let isLast : Bool := decide (currentIndex = s.stops.length - 1)
    let reachedStop := s.stops.getD currentIndex dummyStop
    let nextStops := markStops s.stops currentIndex isLast
    let nextCurrent := nextStops.find? (fun st => st.status == StopStatus.current)
    let tripWrites : List WriteEvent :=
      match s.activeTripId with
      | some tid =>
        [ WriteEvent.tripStopReached driver.route.busNumber tid reachedStop.id,
          WriteEvent.tripRouteState driver.route.busNumber tid
            (if isLast then RouteState.completed else RouteState.in_progress) nextCurrent ]
      | none => []
    let lastWrites : List WriteEvent :=
      if isLast then
        [WriteEvent.routeStateWrite driver.id driver.route.busNumber RouteState.completed] ++
          (match s.activeTripId with
           | some tid => [WriteEvent.finishTripDoc driver.route.busNumber tid]
           | none => [])
      else []
    ({ stops := nextStops,
       routeState := if isLast then RouteState.completed else s.routeState,
       activeTripId := s.activeTripId },
     tripWrites ++
       [WriteEvent.rtdbMarkReached driver.route.busNumber reachedStop.id now nextCurrent] ++
       lastWrites)

/-- The body of the auto-reset `setTimeout` callback in `MainRoutePage.tsx`:
reset every stop to pending, route state to not_started, clear the active
trip id, then persist the reset stop list and the not_started route state.
All writes are fire-and-forget, so `outcomes` is never consulted. -/
def runReset (driver : DriverInfo) (_s : AppState) (_outcomes : Nat → Bool) :
    AppState × List WriteEvent :=
  let rStops := resetStops driver.route.stops
  ({ stops := rStops, routeState := RouteState.not_started, activeTripId := none },
   [ WriteEvent.stopsProgress driver.route.busNumber rStops,
     WriteEvent.routeStateWrite driver.id driver.route.busNumber RouteState.not_started ])

/-- Modelled from the spec: the persisted active-trip record that
`getActiveTrip(busNumber)` (imported from `tripService` but not present in
the sources) returns from the Durable Document Store. Per the spec's Trip
aggregate it carries the trip id, the trips `routeState`, a per-stop-id
snapshot map (of which `restoreTripState` reads only each stops `status`),
and the denormalized `currentStop` pointer (of which `restoreTripState`
reads only the `id`). The store is a best-effort mirror, so the record's
contents are arbitrary. -/
structure ActiveTripDoc where
  tripId : String
  routeState : RouteState
  stopStatus : String → Option StopStatus
  currentStopId : Option String

/-- First phase of `restoreTripState`: overlay the persisted per-stop
statuses onto the route's stop list
(`driver.route.stops.map((stop) => tripStop ? {...stop, status: tripStop.status} : stop)`). -/
def baseRestoredStops (routeStops : List Stop) (t : ActiveTripDoc) : List Stop :=
  routeStops.map (fun stop =>
    match t.stopStatus stop.id with
    | some ts => { stop with status := ts }
    | none => stop)

/-- Second phase of `restoreTripState`: if the persisted `currentStop`
resolves to an index, force that index to `current`, every earlier index to
`reached`, and every later index to `pending` unless it is already
`reached`. -/
def restoredStops (routeStops : List Stop) (t : ActiveTripDoc) : List Stop :=
  let base := baseRestoredStops routeStops t
  match t.currentStopId with
  | none => base
  | some cid =>
    match base.findIdx? (fun s => s.id == cid) with
    | none => base
    | some idx =>
      mapWithIndex (fun i st =>
        if i = idx then { st with status := StopStatus.current }
        else if i < idx then { st with status := StopStatus.reached }
        else if st.status = StopStatus.reached then st
        else { st with status := StopStatus.pending }) base

/-- The state update and writes of `restoreTripState` in the case where
`getActiveTrip` returned a trip (when it returns `null` the effect changes
nothing). All writes are fire-and-forget, so `outcomes` is unused. -/
def runRestore (driver : DriverInfo) (t : ActiveTripDoc) (_s : AppState)
    (_outcomes : Nat → Bool) : AppState × List WriteEvent :=
  let rStops := restoredStops driver.route.stops t
  ({ stops := rStops, routeState := t.routeState, activeTripId := some t.tripId },
   [ WriteEvent.routeStateWrite driver.id driver.route.busNumber t.routeState,
     WriteEvent.stopsProgress driver.route.busNumber rStops,
     WriteEvent.busLocationMeta driver.route.busNumber driver.route.id
       driver.route.name driver.name t.routeState ])

/-- A value written to the Real-Time Broadcast Store at one path. -/
inductive RTDBValue where
  | statusVal (s : StopStatus)
  | natVal (n : Nat)
  | currentStopVal (stopId name : Option String) (order : Option Nat) (status : Option StopStatus)
deriving DecidableEq, Repr

/-- The multi-path update object built by `markStopReachedInRTDB` in
`firebaseService.ts`: the reached stop's `status` and `reachedAt` leaves, the
whole `currentStop` node (with `null` fields when there is no next current
stop), and, only when a next current stop exists, that stop's `status` leaf. -/
def markStopReachedUpdates (busNumber reachedStopId : String) (reachedAt : Nat)
    (nextCurrentStop : Option Stop) : List (List String × RTDBValue) :=
  [ (["buses", busNumber, "stops", reachedStopId, "status"],
      RTDBValue.statusVal StopStatus.reached),
    (["buses", busNumber, "stops", reachedStopId, "reachedAt"],
      RTDBValue.natVal reachedAt),
    (["buses", busNumber, "currentStop"],
      match nextCurrentStop with
      | some n => RTDBValue.currentStopVal (some n.id) (some n.name) (some n.order) (some n.status)
      | none => RTDBValue.currentStopVal none none none none) ] ++
  (match nextCurrentStop with
   | some n => [(["buses", busNumber, "stops", n.id, "status"],
       RTDBValue.statusVal StopStatus.current)]
   | none => [])

/-- `update(ref(database), updates)`: a multi-path update overwrites exactly
the listed paths and leaves every other path of the store untouched. -/
def applyRTDBUpdate (db : List String → Option RTDBValue)
    (updates : List (List String × RTDBValue)) : List String → Option RTDBValue :=
  fun p =>
    match updates.find? (fun u => u.1 == p) with
    | some u => some u.2
    | none => db p

/-- The `current` selection in `saveStopsProgressToFirebase`:
`stops.find((s) => s.status === 'current') ?? stops.find((s) => s.status === 'pending') ?? null`. -/
def chooseCurrentForRTDB (stops : List Stop) : Option Stop :=
  match stops.find? (fun s => s.status == StopStatus.current) with
  | some s => some s
  | none => stops.find? (fun s => s.status == StopStatus.pending)

/-- The `currentStop` node written by `saveStopsProgressToFirebase`:
`{stopId: current?.id ?? null, name: current?.name ?? null, order: current?.order ?? null, status: current?.status ?? null}`. -/
def currentStopNodeOf (c : Option Stop) : RTDBValue :=
  match c with
  | some s => RTDBValue.currentStopVal (some s.id) (some s.name) (some s.order) (some s.status)
  | none => RTDBValue.currentStopVal none none none none

/-- The stop-list states reachable by the page's operations: the initial
mount state, `handleStartRoute`, `handleMarkReached`, the post-completion
auto-reset, and `restoreTripState` applied to an arbitrary persisted active
trip, with arbitrary write outcomes and inputs throughout. -/
inductive Reachable (driver : DriverInfo) : AppState → Prop where
  | init : Reachable driver (initState driver)
  | start (s : AppState) (tid : String) (o : Nat → Bool) :
      Reachable driver s → Reachable driver (runStartRoute driver s tid o).1
  | mark (s : AppState) (now : Nat) (o : Nat → Bool) :
      Reachable driver s → Reachable driver (runMarkReached driver s now o).1
  | reset (s : AppState) (o : Nat → Bool) :
      Reachable driver s → s.routeState = RouteState.completed →
      Reachable driver (runReset driver s o).1
  | restore (s : AppState) (t : ActiveTripDoc) (o : Nat → Bool) :
      Reachable driver s → Reachable driver (runRestore driver t s o).1

/-- At most one stop of the list has status `current`. -/
def atMostOneCurrent (l : List Stop) : Prop :=
  ∀ i (hi : i < l.length), (l[i]).status = StopStatus.current →
    ∀ j (hj : j < l.length), (l[j]).status = StopStatus.current → i = j

/-- The `reached` stops are exactly the positions strictly before the
`current` stop's position. -/
def reachedExactlyBeforeCurrent (l : List Stop) : Prop :=
  ∀ i (hi : i < l.length), (l[i]).status = StopStatus.current →
    ∀ j (hj : j < l.length), ((l[j]).status = StopStatus.reached ↔ j < i)

/-- The positional stop-list invariant of the spec. -/
def stopsConsistent (l : List Stop) : Prop :=
  atMostOneCurrent l ∧ reachedExactlyBeforeCurrent l

/-- The `reached` stops are exactly those of strictly lower `order` than the
`current` stop (the by-`order` reading of the prefix invariant). -/
def reachedExactlyLowerOrder (l : List Stop) : Prop :=
  ∀ i (hi : i < l.length), (l[i]).status = StopStatus.current →
    ∀ j (hj : j < l.length),
      ((l[j]).status = StopStatus.reached ↔ (l[j]).order < (l[i]).order)

/-- The by-`order` stop-list invariant of the spec. -/
def stopsConsistentOrd (l : List Stop) : Prop :=
  atMostOneCurrent l ∧ reachedExactlyLowerOrder l

theorem stopsConsistent_of_no_current_no_reached (l : List Stop)
    (h : ∀ st ∈ l, st.status ≠ StopStatus.current) : stopsConsistent l := by
  constructor
  · intro i hi hci
    exact absurd hci (h _ (List.getElem_mem hi))
  · intro i hi hci
    exact absurd hci (h _ (List.getElem_mem hi))

theorem status_startStops (l : List Stop) (j : Nat) (hj : j < l.length)
    (hj2 : j < (startStops l).length) :
    ((startStops l)[j]).status =
      if j = 0 then StopStatus.current else StopStatus.pending := by
  have h : (startStops l)[j] =
      (fun index stop =>
        if index = 0 then { stop with status := StopStatus.current }
        else { stop with status := StopStatus.pending }) j (l[j]) :=
    getElem_mapWithIndex _ l j hj hj2
  rw [h]
  by_cases h0 : j = 0 <;> simp [h0]

theorem status_markStops (l : List Stop) (i : Nat) (isLast : Bool) (j : Nat)
    (hj : j < l.length) (hj2 : j < (markStops l i isLast).length) :
    ((markStops l i isLast)[j]).status =
      (if j = i then StopStatus.reached
       else if j = i + 1 ∧ isLast = false then StopStatus.current
       else (l[j]).status) := by
  have h : (markStops l i isLast)[j] =
      (fun index stop =>
        if index = i then { stop with status := StopStatus.reached }
        else if index = i + 1 ∧ isLast = false then { stop with status := StopStatus.current }
        else stop) j (l[j]) :=
    getElem_mapWithIndex _ l j hj hj2
  rw [h]
  by_cases h1 : j = i
  · simp [h1]
  · by_cases h2 : j = i + 1 ∧ isLast = false
    · simp [h1, h2]
    · simp [h1, h2]

theorem stopsConsistent_startStops (l : List Stop) : stopsConsistent (startStops l) := by
  constructor
  · intro i hi hci j hj hcj
    have hi' : i < l.length := by simpa [startStops] using hi
    have hj' : j < l.length := by simpa [startStops] using hj
    rw [status_startStops l i hi'] at hci
    rw [status_startStops l j hj'] at hcj
    by_cases h0 : i = 0
    · by_cases h1 : j = 0
      · rw [h0, h1]
      · simp [h1] at hcj
    · simp [h0] at hci
  · intro i hi hci j hj
    have hi' : i < l.length := by simpa [startStops] using hi
    have hj' : j < l.length := by simpa [startStops] using hj
    rw [status_startStops l i hi'] at hci
    rw [status_startStops l j hj']
    by_cases h0 : i = 0
    · by_cases h1 : j = 0 <;> simp [h0, h1]
    · simp [h0] at hci

theorem currentIdx_some_spec (l : List Stop) (i : Nat) (h : currentIdx l = some i) :
    ∃ hi : i < l.length, (l[i]).status = StopStatus.current ∧
      ∀ j (_hj : j < i) (hj2 : j < l.length), (l[j]).status ≠ StopStatus.current := by
  rw [currentIdx, List.findIdx?_eq_some_iff_getElem] at h
  obtain ⟨hi, h1, h2⟩ := h
  refine ⟨hi, by simpa using h1, ?_⟩
  intro j hj hj2
  have := h2 j hj
  simpa using this

theorem currentIdx_none_spec (l : List Stop) (h : currentIdx l = none) :
    ∀ st ∈ l, st.status ≠ StopStatus.current := by
  rw [currentIdx, List.findIdx?_eq_none_iff] at h
  intro st hst
  have := h st hst
  simpa using this

theorem stopsConsistent_markStops (l : List Stop) (i : Nat)
    (hc : stopsConsistent l) (h : currentIdx l = some i) :
    stopsConsistent (markStops l i (decide (i = l.length - 1))) := by
  obtain ⟨hi, hcur, _hfirst⟩ := currentIdx_some_spec l i h
  by_cases hlast : i = l.length - 1
  · -- last stop: the current stop becomes reached, no stop is promoted
    apply stopsConsistent_of_no_current_no_reached
    intro st hst
    obtain ⟨j, hj, rfl⟩ := List.getElem_of_mem hst
    have hj' : j < l.length := by simpa [markStops] using hj
    rw [status_markStops l i _ j hj']
    by_cases h1 : j = i
    · simp [h1]
    · have h2 : ¬ (j = i + 1 ∧ (decide (i = l.length - 1)) = false) := by
        simp [hlast]
      simp only [h1, if_false, h2, if_false]
      intro hcj
      exact h1 (hc.1 j hj' hcj i hi hcur)
  · -- not the last stop: the next stop is promoted to current
    have hlt : i + 1 < l.length := by omega
    constructor
    · intro a ha hca b hb hcb
      have ha' : a < l.length := by simpa [markStops] using ha
      have hb' : b < l.length := by simpa [markStops] using hb
      rw [status_markStops l i _ a ha'] at hca
      rw [status_markStops l i _ b hb'] at hcb
      have hA : a = i + 1 := by
        by_cases h1 : a = i
        · simp [h1] at hca
        · by_cases h2 : a = i + 1 ∧ (decide (i = l.length - 1)) = false
          · exact h2.1
          · simp only [h1, if_false, h2, if_false] at hca
            exact absurd (hc.1 a ha' hca i hi hcur) h1
      have hB : b = i + 1 := by
        by_cases h1 : b = i
        · simp [h1] at hcb
        · by_cases h2 : b = i + 1 ∧ (decide (i = l.length - 1)) = false
          · exact h2.1
          · simp only [h1, if_false, h2, if_false] at hcb
            exact absurd (hc.1 b hb' hcb i hi hcur) h1
      rw [hA, hB]
    · intro a ha hca j hj
      have ha' : a < l.length := by simpa [markStops] using ha
      have hj' : j < l.length := by simpa [markStops] using hj
      rw [status_markStops l i _ a ha'] at hca
      rw [status_markStops l i _ j hj']
      have hA : a = i + 1 := by
        by_cases h1 : a = i
        · simp [h1] at hca
        · by_cases h2 : a = i + 1 ∧ (decide (i = l.length - 1)) = false
          · exact h2.1
          · simp only [h1, if_false, h2, if_false] at hca
            exact absurd (hc.1 a ha' hca i hi hcur) h1
      subst hA
      by_cases h1 : j = i
      · simp [h1]
      · by_cases h2 : j = i + 1 ∧ (decide (i = l.length - 1)) = false
        · have : j = i + 1 := h2.1
          simp [this, h2]
        · simp only [h1, if_false, h2, if_false]
          have hiff := hc.2 i hi hcur j hj'
          rw [hiff]
          constructor
          · intro hlt2
            omega
          · intro hle
            have hne : j ≠ i + 1 := by
              intro hcontra
              exact h2 ⟨hcontra, by simp [hlast]⟩
            omega

theorem stopsConsistent_resetStops (l : List Stop) : stopsConsistent (resetStops l) := by
  apply stopsConsistent_of_no_current_no_reached
  intro st hst
  rw [resetStops] at hst
  obtain ⟨a, _, rfl⟩ := List.mem_map.mp hst
  simp

/-- Consistency of a persisted active trip relative to the route's stop
list: whenever the persisted `currentStop` pointer resolves to a position,
no stop strictly after that position is persisted as `reached`; when it does
not resolve, the overlaid statuses must already satisfy the stop-list
invariant (because `restoreTripState` then adopts them unchanged). -/
def tripConsistent (routeStops : List Stop) (t : ActiveTripDoc) : Prop :=
  match t.currentStopId with
  | none => stopsConsistent (baseRestoredStops routeStops t)
  | some cid =>
    match (baseRestoredStops routeStops t).findIdx? (fun s => s.id == cid) with
    | none => stopsConsistent (baseRestoredStops routeStops t)
    | some idx =>
      ∀ j (hj : j < (baseRestoredStops routeStops t).length), idx < j →
        ((baseRestoredStops routeStops t)[j]).status ≠ StopStatus.reached

theorem stopsConsistent_restoredStops (routeStops : List Stop) (t : ActiveTripDoc)
    (hc : tripConsistent routeStops t) : stopsConsistent (restoredStops routeStops t) := by
  cases hcs : t.currentStopId with
  | none =>
    simp only [tripConsistent, hcs] at hc
    simpa only [restoredStops, hcs] using hc
  | some cid =>
    cases hf : (baseRestoredStops routeStops t).findIdx? (fun s => s.id == cid) with
    | none =>
      simp only [tripConsistent, hcs, hf] at hc
      simpa only [restoredStops, hcs, hf] using hc
    | some idx =>
      simp only [tripConsistent, hcs, hf] at hc
      simp only [restoredStops, hcs, hf]
      constructor
      · intro a ha hca b hb hcb
        have ha' : a < (baseRestoredStops routeStops t).length := by simpa using ha
        have hb' : b < (baseRestoredStops routeStops t).length := by simpa using hb
        rw [getElem_mapWithIndex _ _ a ha'] at hca
        rw [getElem_mapWithIndex _ _ b hb'] at hcb
        have hA : a = idx := by
          by_cases h1 : a = idx
          · exact h1
          · exfalso
            by_cases h2 : a < idx
            · simp [h1, h2] at hca
            · by_cases h3 : ((baseRestoredStops routeStops t)[a]).status = StopStatus.reached
              · simp only [h1, if_false, h2, if_false, h3, if_true] at hca
                exact StopStatus.noConfusion hca
              · simp [h1, h2, h3] at hca
        have hB : b = idx := by
          by_cases h1 : b = idx
          · exact h1
          · exfalso
            by_cases h2 : b < idx
            · simp [h1, h2] at hcb
            · by_cases h3 : ((baseRestoredStops routeStops t)[b]).status = StopStatus.reached
              · simp only [h1, if_false, h2, if_false, h3, if_true] at hcb
                exact StopStatus.noConfusion hcb
              · simp [h1, h2, h3] at hcb
        rw [hA, hB]
      · intro a ha hca j hj
        have ha' : a < (baseRestoredStops routeStops t).length := by simpa using ha
        have hj' : j < (baseRestoredStops routeStops t).length := by simpa using hj
        rw [getElem_mapWithIndex _ _ a ha'] at hca
        rw [getElem_mapWithIndex _ _ j hj']
        have hA : a = idx := by
          by_cases h1 : a = idx
          · exact h1
          · exfalso
            by_cases h2 : a < idx
            · simp [h1, h2] at hca
            · by_cases h3 : ((baseRestoredStops routeStops t)[a]).status = StopStatus.reached
              · simp only [h1, if_false, h2, if_false, h3, if_true] at hca
                exact StopStatus.noConfusion hca
              · simp [h1, h2, h3] at hca
        subst hA
        by_cases h1 : j = a
        · simp [h1]
        · by_cases h2 : j < a
          · simp [h1, h2]
          · have h3 : ((baseRestoredStops routeStops t)[j]).status ≠ StopStatus.reached :=
              hc j hj' (by omega)
            simp [h1, h2, h3]

/-- Reachability as in `Reachable`, except that the mount-time restore is
restricted to consistent persisted trips (`tripConsistent`). -/
inductive ReachableC (driver : DriverInfo) : AppState → Prop where
  | init : ReachableC driver (initState driver)
  | start (s : AppState) (tid : String) (o : Nat → Bool) :
      ReachableC driver s → ReachableC driver (runStartRoute driver s tid o).1
  | mark (s : AppState) (now : Nat) (o : Nat → Bool) :
      ReachableC driver s → ReachableC driver (runMarkReached driver s now o).1
  | reset (s : AppState) (o : Nat → Bool) :
      ReachableC driver s → s.routeState = RouteState.completed →
      ReachableC driver (runReset driver s o).1
  | restore (s : AppState) (t : ActiveTripDoc) (o : Nat → Bool) :
      ReachableC driver s → tripConsistent driver.route.stops t →
      ReachableC driver (runRestore driver t s o).1

theorem reachableC_reachable (driver : DriverInfo) (s : AppState)
    (h : ReachableC driver s) : Reachable driver s := by
  induction h with
  | init => exact Reachable.init
  | start s tid o _ ih => exact Reachable.start s tid o ih
  | mark s now o _ ih => exact Reachable.mark s now o ih
  | reset s o _ hcomp ih => exact Reachable.reset s o ih hcomp
  | restore s t o _ _ ih => exact Reachable.restore s t o ih

theorem stops_runStartRoute (driver : DriverInfo) (s : AppState) (tid : String)
    (o : Nat → Bool) :
    (runStartRoute driver s tid o).1.stops =
      if s.routeState = RouteState.in_progress then s.stops else startStops s.stops := by
  by_cases h : s.routeState = RouteState.in_progress
  · simp [runStartRoute, h]
  · by_cases ho : o 3 <;> simp [runStartRoute, h, ho]

theorem stops_runMarkReached (driver : DriverInfo) (s : AppState) (now : Nat)
    (o : Nat → Bool) :
    (runMarkReached driver s now o).1.stops =
      match currentIdx s.stops with
      | none => s.stops
      | some i => markStops s.stops i (decide (i = s.stops.length - 1)) := by
  cases hci : currentIdx s.stops <;> simp [runMarkReached, hci]

theorem reachableC_stopsConsistent (driver : DriverInfo) (s : AppState)
    (hPend : ∀ st ∈ driver.route.stops, st.status = StopStatus.pending)
    (h : ReachableC driver s) : stopsConsistent s.stops := by
  induction h with
  | init =>
    apply stopsConsistent_of_no_current_no_reached
    intro st hst
    rw [hPend st hst]
    intro hcon
    exact StopStatus.noConfusion hcon
  | start s tid o _ ih =>
    rw [stops_runStartRoute]
    by_cases hrs : s.routeState = RouteState.in_progress
    · simpa [hrs] using ih
    · simp only [hrs, if_false]
      exact stopsConsistent_startStops _
  | mark s now o _ ih =>
    rw [stops_runMarkReached]
    cases hci : currentIdx s.stops with
    | none => simpa using ih
    | some i =>
      simp only
      exact stopsConsistent_markStops s.stops i ih hci
  | reset s o _ _ _ => exact stopsConsistent_resetStops _
  | restore s t o _ hcons _ => exact stopsConsistent_restoredStops _ _ hcons

/-- The identity of a stop: everything except its mutable `status`. -/
def stopKey (st : Stop) : String × String × Nat := (st.id, st.name, st.order)

theorem map_stopKey_mapWithIndexFrom (f : Nat → Stop → Stop)
    (hf : ∀ i st, stopKey (f i st) = stopKey st) (i : Nat) (l : List Stop) :
    (mapWithIndexFrom f i l).map stopKey = l.map stopKey := by
  induction l generalizing i with
  | nil => rfl
  | cons a rest ih => simp [mapWithIndexFrom, hf, ih]

theorem map_stopKey_mapWithIndex (f : Nat → Stop → Stop)
    (hf : ∀ i st, stopKey (f i st) = stopKey st) (l : List Stop) :
    (mapWithIndex f l).map stopKey = l.map stopKey :=
  map_stopKey_mapWithIndexFrom f hf 0 l

theorem map_stopKey_map (g : Stop → Stop) (hg : ∀ st, stopKey (g st) = stopKey st)
    (l : List Stop) : (l.map g).map stopKey = l.map stopKey := by
  induction l with
  | nil => rfl
  | cons a rest ih => simp only [List.map_cons, hg, List.cons.injEq]; exact ⟨trivial, ih⟩

theorem map_stopKey_startStops (l : List Stop) :
    (startStops l).map stopKey = l.map stopKey := by
  apply map_stopKey_mapWithIndex
  intro i st
  by_cases h : i = 0 <;> simp [h, stopKey]

theorem map_stopKey_markStops (l : List Stop) (i : Nat) (isLast : Bool) :
    (markStops l i isLast).map stopKey = l.map stopKey := by
  apply map_stopKey_mapWithIndex
  intro j st
  by_cases h1 : j = i
  · simp [h1, stopKey]
  · by_cases h2 : j = i + 1 ∧ isLast = false <;> simp [h1, h2, stopKey]

theorem map_stopKey_resetStops (l : List Stop) :
    (resetStops l).map stopKey = l.map stopKey := by
  apply map_stopKey_map
  intro st
  simp [stopKey]

theorem map_stopKey_restoredStops (routeStops : List Stop) (t : ActiveTripDoc) :
    (restoredStops routeStops t).map stopKey = routeStops.map stopKey := by
  have hbase : (baseRestoredStops routeStops t).map stopKey = routeStops.map stopKey := by
    apply map_stopKey_map
    intro st
    cases hts : t.stopStatus st.id <;> simp [baseRestoredStops, hts, stopKey]
  cases hcs : t.currentStopId with
  | none => simpa only [restoredStops, hcs] using hbase
  | some cid =>
    cases hf : (baseRestoredStops routeStops t).findIdx? (fun s => s.id == cid) with
    | none => simpa only [restoredStops, hcs, hf] using hbase
    | some idx =>
      simp only [restoredStops, hcs, hf]
      rw [map_stopKey_mapWithIndex]
      · exact hbase
      · intro j st
        by_cases h1 : j = idx
        · simp [h1, stopKey]
        · by_cases h2 : j < idx
          · simp [h1, h2, stopKey]
          · by_cases h3 : st.status = StopStatus.reached <;> simp [h1, h2, h3, stopKey]

theorem reachable_shape (driver : DriverInfo) (s : AppState) (h : Reachable driver s) :
    s.stops.map stopKey = driver.route.stops.map stopKey := by
  induction h with
  | init => rfl
  | start s tid o _ ih =>
    rw [stops_runStartRoute]
    by_cases hrs : s.routeState = RouteState.in_progress
    · simpa [hrs] using ih
    · simp only [hrs, if_false]
      rw [map_stopKey_startStops]
      exact ih
  | mark s now o _ ih =>
    rw [stops_runMarkReached]
    cases hci : currentIdx s.stops with
    | none => simpa using ih
    | some i =>
      simp only
      rw [map_stopKey_markStops]
      exact ih
  | reset s o _ _ _ => exact map_stopKey_resetStops _
  | restore s t o _ _ => exact map_stopKey_restoredStops _ _

theorem stopsConsistentOrd_of_shape (route l : List Stop)
    (hSort : route.Pairwise (fun a b => a.order < b.order))
    (hsh : l.map stopKey = route.map stopKey)
    (hc : stopsConsistent l) : stopsConsistentOrd l := by
  have hlen : l.length = route.length := by
    have := congrArg List.length hsh
    simpa using this
  have horder : ∀ j (hj : j < l.length) (hj2 : j < route.length),
      (l[j]).order = (route[j]).order := by
    intro j hj hj2
    have hm1 : j < (l.map stopKey).length := by simpa using hj
    have hm2 : j < (route.map stopKey).length := by simpa using hj2
    have h1 : (l.map stopKey)[j] = (route.map stopKey)[j] := by
      simp only [hsh]
    rw [List.getElem_map, List.getElem_map] at h1
    exact congrArg (fun x => x.2.2) h1
  have hmono := List.pairwise_iff_getElem.mp hSort
  refine ⟨hc.1, ?_⟩
  intro i hi hci j hj
  rw [hc.2 i hi hci j hj]
  constructor
  · intro hlt
    rw [horder j hj (hlen ▸ hj), horder i hi (hlen ▸ hi)]
    exact hmono j i (hlen ▸ hj) (hlen ▸ hi) hlt
  · intro hlt
    by_contra hge
    push_neg at hge
    rcases Nat.lt_or_ge i j with hij | hij
    · have := hmono i j (hlen ▸ hi) (hlen ▸ hj) hij
      rw [horder j hj (hlen ▸ hj), horder i hi (hlen ▸ hi)] at hlt
      omega
    · have hji : i = j := by omega
      subst hji
      omega

instance (l : List Stop) : Decidable (atMostOneCurrent l) := by
  unfold atMostOneCurrent
  infer_instance

instance (l : List Stop) : Decidable (reachedExactlyBeforeCurrent l) := by
  unfold reachedExactlyBeforeCurrent
  infer_instance

instance (l : List Stop) : Decidable (reachedExactlyLowerOrder l) := by
  unfold reachedExactlyLowerOrder
  infer_instance

instance (l : List Stop) : Decidable (stopsConsistent l) := by
  unfold stopsConsistent
  infer_instance

instance (l : List Stop) : Decidable (stopsConsistentOrd l) := by
  unfold stopsConsistentOrd
  infer_instance

/-- A sample route stop (all `pending`, ascending `order`), for witnesses. -/
def exStopA : Stop := { id := "s1", name := "Alpha", status := StopStatus.pending, order := 1 }

/-- Second sample stop. -/
def exStopB : Stop := { id := "s2", name := "Beta", status := StopStatus.pending, order := 2 }

/-- Third sample stop. -/
def exStopC : Stop := { id := "s3", name := "Gamma", status := StopStatus.pending, order := 3 }

/-- A sample driver with a three-stop route, for witnesses. -/
def exDriver : DriverInfo :=
  { id := "d1", name := "Dina",
    route := { id := "r1", name := "Campus", busNumber := "BUS-7",
               stops := [exStopA, exStopB, exStopC] } }

/-- An inconsistent persisted trip: its stop map marks the third stop
`reached` while its `currentStop` pointer names the first stop. -/
def exTripBad : ActiveTripDoc :=
  { tripId := "t1", routeState := RouteState.in_progress,
    stopStatus := fun sid => if sid = "s3" then some StopStatus.reached else none,
    currentStopId := some "s1" }

/-- The state `restoreTripState` produces from `exTripBad` on a fresh mount. -/
def exBadState : AppState :=
  (runRestore exDriver exTripBad (initState exDriver) (fun _ => true)).1

/-- C1 (amended): in every stop-list state reachable by `start()`,
`markReached()`, the post-completion auto-reset, and mount-time restores
whose persisted trip data is consistent with the route
(`tripConsistent`), at most one stop has status `current` and the `reached`
stops are exactly the prefix of the stop list — positionally and by
`order` — strictly before the current stop's position. -/
theorem c1_stop_list_invariant (driver : DriverInfo) (s : AppState)
    (hPend : ∀ st ∈ driver.route.stops, st.status = StopStatus.pending)
    (hSort : driver.route.stops.Pairwise (fun a b => a.order < b.order))
    (h : ReachableC driver s) :
    stopsConsistent s.stops ∧ stopsConsistentOrd s.stops := by
  have hc := reachableC_stopsConsistent driver s hPend h
  have hsh := reachable_shape driver s (reachableC_reachable driver s h)
  exact ⟨hc, stopsConsistentOrd_of_shape driver.route.stops s.stops hSort hsh hc⟩

/-- C1 witness: the invariant theorem applied at a concrete driver and the
initial reachable state. -/
theorem c1_stop_list_invariant_witness :
    stopsConsistent (initState exDriver).stops ∧ stopsConsistentOrd (initState exDriver).stops :=
  c1_stop_list_invariant exDriver (initState exDriver) (by decide) (by decide) ReachableC.init

/-- C1 counterexample: with restores from arbitrary persisted trips admitted
(as the unrestricted `Reachable` does), a concrete inconsistent trip record
reaches a state with a `reached` stop strictly after the `current` one, so
the claimed invariant fails as stated. -/
theorem c1_counterexample :
    (∀ st ∈ exDriver.route.stops, st.status = StopStatus.pending) ∧
    exDriver.route.stops.Pairwise (fun a b => a.order < b.order) ∧
    Reachable exDriver exBadState ∧
    ¬ stopsConsistent exBadState.stops ∧ ¬ stopsConsistentOrd exBadState.stops :=
  ⟨by decide, by decide,
   Reachable.restore (initState exDriver) exTripBad (fun _ => true) Reachable.init,
   by decide, by decide⟩

theorem routeState_runStartRoute (driver : DriverInfo) (s : AppState) (tid : String)
    (o : Nat → Bool) :
    (runStartRoute driver s tid o).1.routeState = RouteState.in_progress := by
  by_cases h : s.routeState = RouteState.in_progress
  · simp [runStartRoute, h]
  · by_cases ho : o 3 <;> simp [runStartRoute, h, ho]

/-- A sample state whose route is already in progress, for witnesses. -/
def exInProgressState : AppState :=
  { stops := [ { exStopA with status := StopStatus.current }, exStopB, exStopC ],
    routeState := RouteState.in_progress,
    activeTripId := some "t0" }

/-- A sample completed state, for witnesses. -/
def exCompletedState : AppState :=
  { stops := [ { exStopA with status := StopStatus.reached },
               { exStopB with status := StopStatus.reached },
               { exStopC with status := StopStatus.reached } ],
    routeState := RouteState.completed,
    activeTripId := some "t0" }

/-- C4: a `start()` call made while `routeState` is already `in_progress`
returns before any state update or write (the guard on the first line of
`handleStartRoute`), and since any `start()` call leaves `routeState` at
`in_progress`, a second `start()` in immediate succession changes no state
and issues no writes, so two calls end in the same state as one. -/
theorem c4_start_idempotent (driver : DriverInfo) (s : AppState) (tid tid2 : String)
    (o o2 : Nat → Bool) :
    (s.routeState = RouteState.in_progress → runStartRoute driver s tid o = (s, [])) ∧
    runStartRoute driver (runStartRoute driver s tid o).1 tid2 o2 =
      ((runStartRoute driver s tid o).1, []) := by
  constructor
  · intro h
    simp [runStartRoute, h]
  · generalize hs1 : (runStartRoute driver s tid o).1 = s1
    have h2 : s1.routeState = RouteState.in_progress :=
      hs1 ▸ routeState_runStartRoute driver s tid o
    simp [runStartRoute, h2]

/-- C4 witness: the idempotence theorem at a concrete in-progress state and
at a concrete fresh start. -/
theorem c4_start_idempotent_witness :
    runStartRoute exDriver exInProgressState "t9" (fun _ => true) = (exInProgressState, []) ∧
    runStartRoute exDriver (runStartRoute exDriver (initState exDriver) "t9" (fun _ => true)).1
        "t8" (fun _ => false) =
      ((runStartRoute exDriver (initState exDriver) "t9" (fun _ => true)).1, []) :=
  ⟨(c4_start_idempotent exDriver exInProgressState "t9" "t8" (fun _ => true) (fun _ => false)).1
     (by decide),
   (c4_start_idempotent exDriver (initState exDriver) "t9" "t8"
     (fun _ => true) (fun _ => false)).2⟩

/-- C5: `handleMarkReached` with no `current` stop returns at the
`if (currentIndex === -1) return;` guard: the state is unchanged and no
write is issued (and the embedding is a total function, so no error is
raised). -/
theorem c5_mark_no_current (driver : DriverInfo) (s : AppState) (now : Nat)
    (o : Nat → Bool) (h : ∀ st ∈ s.stops, st.status ≠ StopStatus.current) :
    runMarkReached driver s now o = (s, []) := by
  have hci : currentIdx s.stops = none := by
    rw [currentIdx, List.findIdx?_eq_none_iff]
    intro st hst
    simpa using h st hst
  simp [runMarkReached, hci]

/-- C5 witness: marking with no current stop on a concrete all-pending
state. -/
theorem c5_mark_no_current_witness :
    runMarkReached exDriver (initState exDriver) 5 (fun _ => true) =
      (initState exDriver, []) :=
  c5_mark_no_current exDriver (initState exDriver) 5 (fun _ => true) (by decide)

/-- C6: the auto-reset fires after a fixed 8000 ms delay and produces
`not_started`, all stops `pending` (hence none `current`), and a cleared
active trip id. -/
theorem c6_auto_reset (driver : DriverInfo) (s : AppState) (o : Nat → Bool)
    (_hcomp : s.routeState = RouteState.completed) :
    resetDelayMs = 8000 ∧
    (runReset driver s o).1.routeState = RouteState.not_started ∧
    (∀ st ∈ (runReset driver s o).1.stops, st.status = StopStatus.pending) ∧
    (∀ st ∈ (runReset driver s o).1.stops, st.status ≠ StopStatus.current) ∧
    (runReset driver s o).1.activeTripId = none := by
  refine ⟨rfl, rfl, ?_, ?_, rfl⟩
  · intro st hst
    have hst' : st ∈ resetStops driver.route.stops := hst
    rw [resetStops] at hst'
    obtain ⟨a, -, rfl⟩ := List.mem_map.mp hst'
    rfl
  · intro st hst
    have hst' : st ∈ resetStops driver.route.stops := hst
    rw [resetStops] at hst'
    obtain ⟨a, -, rfl⟩ := List.mem_map.mp hst'
    intro hcon
    exact StopStatus.noConfusion hcon

/-- C6 witness: the auto-reset theorem at a concrete completed state. -/
theorem c6_auto_reset_witness :
    resetDelayMs = 8000 ∧
    (runReset exDriver exCompletedState (fun _ => true)).1.routeState = RouteState.not_started ∧
    (∀ st ∈ (runReset exDriver exCompletedState (fun _ => true)).1.stops,
      st.status = StopStatus.pending) ∧
    (∀ st ∈ (runReset exDriver exCompletedState (fun _ => true)).1.stops,
      st.status ≠ StopStatus.current) ∧
    (runReset exDriver exCompletedState (fun _ => true)).1.activeTripId = none :=
  c6_auto_reset exDriver exCompletedState (fun _ => true) (by decide)

/-- C7: from `not_started`, `handleStartRoute` issues its writes in program
order: bus/route identity metadata to `buses/{busNumber}/location` first,
then the watched `routeState` field, then the full per-stop status map, then
the trip-document creation in the Durable Document Store (followed, only on
its success, by the trip-document `currentStop` update). -/
theorem c7_start_write_order (driver : DriverInfo) (s : AppState) (tid : String)
    (o : Nat → Bool) (hns : s.routeState = RouteState.not_started) :
    (runStartRoute driver s tid o).2 =
      [ WriteEvent.busLocationMeta driver.route.busNumber driver.route.id
          driver.route.name driver.name RouteState.in_progress,
        WriteEvent.routeStateWrite driver.id driver.route.busNumber RouteState.in_progress,
        WriteEvent.stopsProgress driver.route.busNumber (startStops s.stops),
        WriteEvent.createTripDoc driver.route.busNumber driver.route.id
          driver.route.name driver.id driver.name (startStops s.stops) ] ++
      (if o 3 then
        [WriteEvent.tripRouteState driver.route.busNumber tid RouteState.in_progress
          ((startStops s.stops).find? (fun st => st.status == StopStatus.current))]
       else []) := by
  have hni : ¬ s.routeState = RouteState.in_progress := by
    rw [hns]
    intro hcon
    exact RouteState.noConfusion hcon
  by_cases ho : o 3 <;> simp [runStartRoute, hni, ho]

/-- C7 witness: the write order at a concrete fresh start. -/
theorem c7_start_write_order_witness :
    (runStartRoute exDriver (initState exDriver) "t1" (fun _ => true)).2 =
      [ WriteEvent.busLocationMeta "BUS-7" "r1" "Campus" "Dina" RouteState.in_progress,
        WriteEvent.routeStateWrite "d1" "BUS-7" RouteState.in_progress,
        WriteEvent.stopsProgress "BUS-7" (startStops (initState exDriver).stops),
        WriteEvent.createTripDoc "BUS-7" "r1" "Campus" "d1" "Dina"
          (startStops (initState exDriver).stops) ] ++
      (if (fun _ : Nat => true) 3 then
        [WriteEvent.tripRouteState "BUS-7" "t1" RouteState.in_progress
          ((startStops (initState exDriver).stops).find?
            (fun st => st.status == StopStatus.current))]
       else []) :=
  c7_start_write_order exDriver (initState exDriver) "t1" (fun _ => true) (by decide)

/-- C9: for each of the three transitions, the resulting in-memory `stops`
and `routeState` do not depend on the success or failure of any issued
write: every write rejection is only caught and logged, and only the trip-id
cell (not `stops`/`routeState`) reacts to the `startTrip` outcome. -/
theorem c9_local_state_independent_of_write_outcomes (driver : DriverInfo)
    (s : AppState) (tid : String) (now : Nat) (o o2 : Nat → Bool) :
    ((runStartRoute driver s tid o).1.stops = (runStartRoute driver s tid o2).1.stops ∧
     (runStartRoute driver s tid o).1.routeState =
       (runStartRoute driver s tid o2).1.routeState) ∧
    (runMarkReached driver s now o).1 = (runMarkReached driver s now o2).1 ∧
    (runReset driver s o).1 = (runReset driver s o2).1 := by
  refine ⟨⟨?_, ?_⟩, rfl, rfl⟩
  · rw [stops_runStartRoute, stops_runStartRoute]
  · rw [routeState_runStartRoute, routeState_runStartRoute]

theorem order_startStops (l : List Stop) (j : Nat) (hj : j < l.length)
    (hj2 : j < (startStops l).length) :
    ((startStops l)[j]).order = (l[j]).order := by
  have h : (startStops l)[j] =
      (fun index stop =>
        if index = 0 then { stop with status := StopStatus.current }
        else { stop with status := StopStatus.pending }) j (l[j]) :=
    getElem_mapWithIndex _ l j hj hj2
  rw [h]
  by_cases h0 : j = 0 <;> simp [h0]

/-- C2: from `not_started`, for any stop list with at least one stop that is
sorted by `order` (as `getRouteById` returns it), `start()` leaves exactly
one `current` stop — the one at index 0, whose `order` is minimal — all
other stops `pending`, and `routeState` equal to `in_progress`. -/
theorem c2_start_route (driver : DriverInfo) (s : AppState) (tid : String) (o : Nat → Bool)
    (hns : s.routeState = RouteState.not_started)
    (hlen : 1 ≤ s.stops.length)
    (hSort : s.stops.Pairwise (fun a b => a.order ≤ b.order)) :
    (runStartRoute driver s tid o).1.routeState = RouteState.in_progress ∧
    (runStartRoute driver s tid o).1.stops.length = s.stops.length ∧
    (∀ j (hj : j < (runStartRoute driver s tid o).1.stops.length),
      (((runStartRoute driver s tid o).1.stops[j]).status = StopStatus.current ↔ j = 0)) ∧
    (∀ j (hj : j < (runStartRoute driver s tid o).1.stops.length), j ≠ 0 →
      ((runStartRoute driver s tid o).1.stops[j]).status = StopStatus.pending) ∧
    ∀ (h0 : 0 < (runStartRoute driver s tid o).1.stops.length)
      (j : Nat) (hj : j < (runStartRoute driver s tid o).1.stops.length),
      ((runStartRoute driver s tid o).1.stops[0]).order ≤
        ((runStartRoute driver s tid o).1.stops[j]).order := by
  have hni : ¬ s.routeState = RouteState.in_progress := by
    rw [hns]
    intro hcon
    exact RouteState.noConfusion hcon
  have hs : (runStartRoute driver s tid o).1.stops = startStops s.stops := by
    rw [stops_runStartRoute, if_neg hni]
  rw [hs, routeState_runStartRoute]
  refine ⟨rfl, by simp [startStops], ?_, ?_, ?_⟩
  · intro j hj
    have hj' : j < s.stops.length := by simpa [startStops] using hj
    rw [status_startStops s.stops j hj']
    by_cases h0 : j = 0 <;> simp [h0]
  · intro j hj hj0
    have hj' : j < s.stops.length := by simpa [startStops] using hj
    rw [status_startStops s.stops j hj']
    simp [hj0]
  · intro h0 j hj
    have hj' : j < s.stops.length := by simpa [startStops] using hj
    have h0' : 0 < s.stops.length := by omega
    rw [order_startStops s.stops 0 h0', order_startStops s.stops j hj']
    by_cases hj0 : j = 0
    · subst hj0
      exact Nat.le_refl _
    · exact (List.pairwise_iff_getElem.mp hSort) 0 j h0' hj' (by omega)

/-- C2 witness: `start()` on the concrete three-stop route. -/
theorem c2_start_route_witness :
    (runStartRoute exDriver (initState exDriver) "t1" (fun _ => true)).1.routeState =
      RouteState.in_progress ∧
    (runStartRoute exDriver (initState exDriver) "t1" (fun _ => true)).1.stops.length =
      (initState exDriver).stops.length ∧
    (∀ j (hj : j < (runStartRoute exDriver (initState exDriver) "t1"
        (fun _ => true)).1.stops.length),
      (((runStartRoute exDriver (initState exDriver) "t1"
        (fun _ => true)).1.stops[j]).status = StopStatus.current ↔ j = 0)) ∧
    (∀ j (hj : j < (runStartRoute exDriver (initState exDriver) "t1"
        (fun _ => true)).1.stops.length), j ≠ 0 →
      ((runStartRoute exDriver (initState exDriver) "t1"
        (fun _ => true)).1.stops[j]).status = StopStatus.pending) ∧
    ∀ (h0 : 0 < (runStartRoute exDriver (initState exDriver) "t1"
        (fun _ => true)).1.stops.length)
      (j : Nat) (hj : j < (runStartRoute exDriver (initState exDriver) "t1"
        (fun _ => true)).1.stops.length),
      ((runStartRoute exDriver (initState exDriver) "t1"
        (fun _ => true)).1.stops[0]).order ≤
        ((runStartRoute exDriver (initState exDriver) "t1"
          (fun _ => true)).1.stops[j]).order :=
  c2_start_route exDriver (initState exDriver) "t1" (fun _ => true)
    (by decide) (by decide) (by decide)

theorem runMarkReached_last (driver : DriverInfo) (s : AppState) (now : Nat)
    (o : Nat → Bool) (i : Nat) (hF : currentIdx s.stops = some i)
    (hlast : i = s.stops.length - 1) :
    runMarkReached driver s now o =
      ({ stops := markStops s.stops i true,
         routeState := RouteState.completed,
         activeTripId := s.activeTripId },
       (match s.activeTripId with
        | some tid =>
          [ WriteEvent.tripStopReached driver.route.busNumber tid
              (s.stops.getD i dummyStop).id,
            WriteEvent.tripRouteState driver.route.busNumber tid RouteState.completed
              ((markStops s.stops i true).find? (fun st => st.status == StopStatus.current)) ]
        | none => []) ++
       [ WriteEvent.rtdbMarkReached driver.route.busNumber (s.stops.getD i dummyStop).id now
           ((markStops s.stops i true).find? (fun st => st.status == StopStatus.current)) ] ++
       ([WriteEvent.routeStateWrite driver.id driver.route.busNumber RouteState.completed] ++
        (match s.activeTripId with
         | some tid => [WriteEvent.finishTripDoc driver.route.busNumber tid]
         | none => []))) := by
  have hd : decide (i = s.stops.length - 1) = true := by simp [hlast]
  simp [runMarkReached, hF, hd]

theorem find?_current_markStops_last (l : List Stop) (i : Nat)
    (hF : currentIdx l = some i) (hlast : i = l.length - 1) :
    (markStops l i true).find? (fun st => st.status == StopStatus.current) = none := by
  obtain ⟨hi, hcur, hfirst⟩ := currentIdx_some_spec l i hF
  rw [List.find?_eq_none]
  intro st hst
  obtain ⟨j, hj, rfl⟩ := List.getElem_of_mem hst
  have hj' : j < l.length := by simpa [markStops] using hj
  rw [status_markStops l i true j hj']
  by_cases h1 : j = i
  · simp [h1]
  · have h2 : ¬ (j = i + 1 ∧ true = false) := by simp
    simp only [h1, if_false, h2]
    have hji : j < i := by omega
    simpa using hfirst j hji hj'

/-- C3: if `markReached()` fires while the `current` stop is the
highest-`order` stop (with the list sorted strictly by `order`, as
`getRouteById` returns it), that stop becomes `reached`, `routeState`
becomes `completed`, no stop is `current` afterwards, and both published
`currentStop` values for the trip — the Broadcast Store update and the trip
document update — are null. -/
theorem c3_mark_reached_last (driver : DriverInfo) (s : AppState) (now : Nat)
    (o : Nat → Bool) (i : Nat) (hi : i < s.stops.length)
    (hSort : s.stops.Pairwise (fun a b => a.order < b.order))
    (hF : currentIdx s.stops = some i)
    (hMax : ∀ j (hj : j < s.stops.length), (s.stops[j]).order ≤ (s.stops[i]).order) :
    (runMarkReached driver s now o).1.routeState = RouteState.completed ∧
    (runMarkReached driver s now o).1.stops.length = s.stops.length ∧
    (∀ j (hj : j < (runMarkReached driver s now o).1.stops.length),
      ((runMarkReached driver s now o).1.stops[j]).status ≠ StopStatus.current) ∧
    (∀ hij : i < (runMarkReached driver s now o).1.stops.length,
      ((runMarkReached driver s now o).1.stops[i]).status = StopStatus.reached) ∧
    WriteEvent.rtdbMarkReached driver.route.busNumber ((s.stops[i]).id) now none
      ∈ (runMarkReached driver s now o).2 ∧
    (∀ tid, s.activeTripId = some tid →
      WriteEvent.tripRouteState driver.route.busNumber tid RouteState.completed none
        ∈ (runMarkReached driver s now o).2) := by
  have hlast : i = s.stops.length - 1 := by
    by_contra hne
    have hl : s.stops.length - 1 < s.stops.length := by omega
    have hmono := (List.pairwise_iff_getElem.mp hSort) i (s.stops.length - 1) hi hl (by omega)
    have h2 := hMax (s.stops.length - 1) hl
    omega
  have hfind := find?_current_markStops_last s.stops i hF hlast
  have hgetD : s.stops.getD i dummyStop = s.stops[i] := by
    simp [List.getD_eq_getElem?_getD, List.getElem?_eq_getElem hi]
  rw [runMarkReached_last driver s now o i hF hlast, hfind, hgetD]
  refine ⟨rfl, by simp [markStops], ?_, ?_, ?_, ?_⟩
  · intro j hj
    have hj' : j < s.stops.length := by simpa [markStops] using hj
    rw [status_markStops s.stops i true j hj']
    obtain ⟨hi2, hcur, hfirst⟩ := currentIdx_some_spec s.stops i hF
    by_cases h1 : j = i
    · simp [h1]
    · have h2 : ¬ (j = i + 1 ∧ true = false) := by simp
      simp only [h1, if_false, h2]
      have hji : j < i := by omega
      exact hfirst j hji hj'
  · intro hij
    have hi2 : i < s.stops.length := hi
    rw [status_markStops s.stops i true i hi2]
    simp
  · cases s.activeTripId <;> simp
  · intro tid htid
    rw [htid]
    simp

/-- A sample in-progress state whose `current` stop is the last stop. -/
def exLastCurrentState : AppState :=
  { stops := [ { exStopA with status := StopStatus.reached },
               { exStopB with status := StopStatus.reached },
               { exStopC with status := StopStatus.current } ],
    routeState := RouteState.in_progress,
    activeTripId := some "t1" }

/-- C3 witness: marking the last stop reached on a concrete trip. -/
theorem c3_mark_reached_last_witness :
    (runMarkReached exDriver exLastCurrentState 7 (fun _ => true)).1.routeState =
      RouteState.completed ∧
    (runMarkReached exDriver exLastCurrentState 7 (fun _ => true)).1.stops.length =
      exLastCurrentState.stops.length ∧
    (∀ j (hj : j < (runMarkReached exDriver exLastCurrentState 7
        (fun _ => true)).1.stops.length),
      ((runMarkReached exDriver exLastCurrentState 7
        (fun _ => true)).1.stops[j]).status ≠ StopStatus.current) ∧
    (∀ hij : 2 < (runMarkReached exDriver exLastCurrentState 7
        (fun _ => true)).1.stops.length,
      ((runMarkReached exDriver exLastCurrentState 7
        (fun _ => true)).1.stops[2]).status = StopStatus.reached) ∧
    WriteEvent.rtdbMarkReached "BUS-7" "s3" 7 none
      ∈ (runMarkReached exDriver exLastCurrentState 7 (fun _ => true)).2 ∧
    (∀ tid, exLastCurrentState.activeTripId = some tid →
      WriteEvent.tripRouteState "BUS-7" tid RouteState.completed none
        ∈ (runMarkReached exDriver exLastCurrentState 7 (fun _ => true)).2) :=
  c3_mark_reached_last exDriver exLastCurrentState 7 (fun _ => true) 2
    (by decide) (by decide) (by decide) (by decide)

theorem applyRTDBUpdate_not_mem (db : List String → Option RTDBValue)
    (updates : List (List String × RTDBValue)) (p : List String)
    (hp : p ∉ updates.map Prod.fst) :
    applyRTDBUpdate db updates p = db p := by
  have hfind : updates.find? (fun u => u.1 == p) = none := by
    rw [List.find?_eq_none]
    intro u hu
    simp only [beq_iff_eq]
    intro hEq
    exact hp (hEq ▸ List.mem_map_of_mem Prod.fst hu)
  simp [applyRTDBUpdate, hfind]

/-- C8: the Broadcast Store update that `markStopReachedInRTDB` builds
touches exactly the reached stop's `status` and `reachedAt` leaves, the
`currentStop` node, and (when a next current stop exists) that stop's
`status` leaf; applying it leaves every other path — in particular every
other stop's entries and the `location` and `routeState` nodes under
`buses/{busNumber}` — unchanged. -/
theorem c8_mark_reached_targeted_update (bus r : String) (t : Nat) (next : Option Stop)
    (db : List String → Option RTDBValue) :
    ((markStopReachedUpdates bus r t next).map Prod.fst =
      [ ["buses", bus, "stops", r, "status"],
        ["buses", bus, "stops", r, "reachedAt"],
        ["buses", bus, "currentStop"] ] ++
      (match next with
       | some n => [["buses", bus, "stops", n.id, "status"]]
       | none => [])) ∧
    (∀ p, p ∉ (markStopReachedUpdates bus r t next).map Prod.fst →
      applyRTDBUpdate db (markStopReachedUpdates bus r t next) p = db p) ∧
    (∀ sid, sid ≠ r → (∀ n, next = some n → sid ≠ n.id) → ∀ rest,
      applyRTDBUpdate db (markStopReachedUpdates bus r t next)
        ("buses" :: bus :: "stops" :: sid :: rest) =
        db ("buses" :: bus :: "stops" :: sid :: rest)) ∧
    applyRTDBUpdate db (markStopReachedUpdates bus r t next) ["buses", bus, "location"] =
      db ["buses", bus, "location"] ∧
    applyRTDBUpdate db (markStopReachedUpdates bus r t next) ["buses", bus, "routeState"] =
      db ["buses", bus, "routeState"] := by
  refine ⟨?_, ?_, ?_, ?_, ?_⟩
  · cases next <;> simp [markStopReachedUpdates]
  · intro p hp
    exact applyRTDBUpdate_not_mem db _ p hp
  · intro sid hsr hsn rest
    apply applyRTDBUpdate_not_mem
    cases hnx : next with
    | none =>
      simp only [markStopReachedUpdates, hnx, List.append_nil, List.map_cons, List.map_nil,
        List.mem_cons, List.not_mem_nil, or_false]
      push_neg
      refine ⟨?_, ?_, ?_⟩ <;> intro hEq <;> simp only [List.cons.injEq] at hEq
      · exact hsr hEq.2.2.2.1
      · exact hsr hEq.2.2.2.1
      · exact absurd hEq.2.2.1 (by decide)
    | some n =>
      have hn : sid ≠ n.id := hsn n hnx
      simp only [markStopReachedUpdates, hnx, List.map_append, List.map_cons, List.map_nil,
        List.mem_append, List.mem_cons, List.not_mem_nil, or_false]
      push_neg
      refine ⟨⟨?_, ?_, ?_⟩, ?_⟩ <;> intro hEq <;> simp only [List.cons.injEq] at hEq
      · exact hsr hEq.2.2.2.1
      · exact hsr hEq.2.2.2.1
      · exact absurd hEq.2.2.1 (by decide)
      · exact hn hEq.2.2.2.1
  · apply applyRTDBUpdate_not_mem
    cases next <;> simp [markStopReachedUpdates]
  · apply applyRTDBUpdate_not_mem
    cases next <;> simp [markStopReachedUpdates]

/-- A sample Broadcast Store snapshot, for witnesses. -/
def exDb : List String → Option RTDBValue := fun _ => some (RTDBValue.natVal 0)

/-- C8 witness: the targeted-update theorem at a concrete bus, reached stop,
next current stop, store and untouched paths. -/
theorem c8_mark_reached_targeted_update_witness :
    ((markStopReachedUpdates "BUS-7" "s1" 5
        (some { exStopB with status := StopStatus.current })).map Prod.fst =
      [ ["buses", "BUS-7", "stops", "s1", "status"],
        ["buses", "BUS-7", "stops", "s1", "reachedAt"],
        ["buses", "BUS-7", "currentStop"],
        ["buses", "BUS-7", "stops", "s2", "status"] ]) ∧
    applyRTDBUpdate exDb (markStopReachedUpdates "BUS-7" "s1" 5
        (some { exStopB with status := StopStatus.current }))
      ["buses", "BUS-7", "stops", "s3", "status"] =
      exDb ["buses", "BUS-7", "stops", "s3", "status"] ∧
    applyRTDBUpdate exDb (markStopReachedUpdates "BUS-7" "s1" 5
        (some { exStopB with status := StopStatus.current }))
      ["buses", "BUS-7", "location"] = exDb ["buses", "BUS-7", "location"] :=
  ⟨(c8_mark_reached_targeted_update "BUS-7" "s1" 5
      (some { exStopB with status := StopStatus.current }) exDb).1,
   (c8_mark_reached_targeted_update "BUS-7" "s1" 5
      (some { exStopB with status := StopStatus.current }) exDb).2.2.1 "s3" (by decide)
     (fun n hn => by
       injection hn with h2
       subst h2
       decide) ["status"],
   (c8_mark_reached_targeted_update "BUS-7" "s1" 5
      (some { exStopB with status := StopStatus.current }) exDb).2.2.2.1⟩

/-- C10: in `saveStopsProgressToFirebase`, when no stop is `current` the
`currentStop` node is derived from the first `pending` stop (its id, name,
order, status); only when there is neither a `current` nor a `pending` stop
are its fields null; in particular the all-pending reset list yields a
`currentStop` naming the first stop, not a null pointer. -/
theorem c10_save_stops_current_fallback (stops : List Stop)
    (hnc : ∀ st ∈ stops, st.status ≠ StopStatus.current) :
    (∀ p, stops.find? (fun st => st.status == StopStatus.pending) = some p →
      currentStopNodeOf (chooseCurrentForRTDB stops) =
        RTDBValue.currentStopVal (some p.id) (some p.name) (some p.order) (some p.status)) ∧
    (stops.find? (fun st => st.status == StopStatus.pending) = none →
      currentStopNodeOf (chooseCurrentForRTDB stops) =
        RTDBValue.currentStopVal none none none none) ∧
    (∀ (routeStops : List Stop) (hd : Stop) (rest : List Stop), routeStops = hd :: rest →
      currentStopNodeOf (chooseCurrentForRTDB (resetStops routeStops)) =
        RTDBValue.currentStopVal (some hd.id) (some hd.name) (some hd.order)
          (some StopStatus.pending)) := by
  have hcf : stops.find? (fun st => st.status == StopStatus.current) = none := by
    rw [List.find?_eq_none]
    intro st hst
    simpa using hnc st hst
  refine ⟨?_, ?_, ?_⟩
  · intro p hp
    simp [chooseCurrentForRTDB, hcf, hp, currentStopNodeOf]
  · intro hp
    simp [chooseCurrentForRTDB, hcf, hp, currentStopNodeOf]
  · intro routeStops hd rest hEq
    subst hEq
    have h1 : (resetStops (hd :: rest)).find?
        (fun st => st.status == StopStatus.current) = none := by
      rw [List.find?_eq_none]
      intro x hx
      rw [resetStops] at hx
      obtain ⟨a, -, rfl⟩ := List.mem_map.mp hx
      simp
    have h2 : (resetStops (hd :: rest)).find?
        (fun st => st.status == StopStatus.pending) =
        some { hd with status := StopStatus.pending } := by
      rw [resetStops, List.map_cons]
      exact List.find?_cons_of_pos _ (by simp)
    simp [chooseCurrentForRTDB, h1, h2, currentStopNodeOf]

/-- A sample stop list with no `current` stop but a `pending` one. -/
def exNoCurrentStops : List Stop :=
  [ { exStopA with status := StopStatus.reached }, exStopB, exStopC ]

/-- C10 witness: the fallback theorem on a concrete no-current list, on the
concrete reset list, and on a concrete list with neither current nor
pending. -/
theorem c10_save_stops_current_fallback_witness :
    currentStopNodeOf (chooseCurrentForRTDB exNoCurrentStops) =
      RTDBValue.currentStopVal (some "s2") (some "Beta") (some 2)
        (some StopStatus.pending) ∧
    currentStopNodeOf (chooseCurrentForRTDB (resetStops exDriver.route.stops)) =
      RTDBValue.currentStopVal (some "s1") (some "Alpha") (some 1)
        (some StopStatus.pending) ∧
    currentStopNodeOf (chooseCurrentForRTDB [{ exStopA with status := StopStatus.reached }]) =
      RTDBValue.currentStopVal none none none none :=
  ⟨(c10_save_stops_current_fallback exNoCurrentStops (by decide)).1 exStopB (by decide),
   (c10_save_stops_current_fallback exNoCurrentStops (by decide)).2.2
     exDriver.route.stops exStopA [exStopB, exStopC] (by decide),
   (c10_save_stops_current_fallback [{ exStopA with status := StopStatus.reached }]
     (by decide)).2.1 (by decide)⟩
